import Mathlib

/-!
Verification of the poroelastic coupling core (`poroelastic/problem.py`)
against its natural-language specification.

The development shallow-embeds the parts of `PoroelasticProblem` the claims
are about:

* pointwise rational models of the scalar coefficient expressions appearing
  in the variational forms (`sum_fluid_mass`, the solid multiplier factor,
  the compartment-exchange integrand, the pressure-projection right-hand
  side with `phif_i = mf_i/rho + phi0`);
* a symbolic model of the per-compartment term lists of
  `set_fluid_variational_form` (which test function each term pairs with,
  its sign, and whether it is a volume `dx` or a boundary `ds` integral);
* a symbolic model of the left-hand sides produced by the loop in
  `fluid_solid_coupling`, faithful to the rebinding of the name `p` from
  the trial function to the freshly solved function inside the loop;
* an executable state-machine model of `solve()`: the inner Picard loop
  (snapshot, solid solve, pressure coupling, fluid solve, eps update,
  guarded by `eps > tol and iter < maxiter` with `maxiter = 100` and `eps`
  initialised to `1`), the per-timestep commit of the previous-state
  fields, the flow-vector computation, the emission of the per-timestep
  tuple, the mesh motion, and the outer loop `while t < tf` with `t += dt`.

The nonlinear solves, the pressure projection, the L2 norm and the mesh
motion are opaque collaborators in the source (dolfin); they enter the
model as an oracle of stage functions, and every theorem holds for every
oracle unless it is an evaluation at a concrete one.
-/

/-! ## Pointwise models of the scalar form expressions -/

/-- `PoroelasticProblem.sum_fluid_mass`: `mf/rho` when `N == 1`, else
`sum(mf[i] for i in range(N))/rho`.  Pointwise over rationals. -/
def sum_fluid_mass (N : ℕ) (mf : ℕ → ℚ) (rho : ℚ) : ℚ :=
  if N = 1 then mf 0 / rho else (Finset.sum (Finset.range N) mf) / rho

/-- The factor multiplying the Lagrange multiplier `L` in
`set_solid_variational_form`: the code forms `L*(J - 1 - m/rho)` with
`m = self.sum_fluid_mass()`. -/
def solidMultiplierFactor (N : ℕ) (mf : ℕ → ℚ) (rho J : ℚ) : ℚ :=
  J - 1 - sum_fluid_mass N mf rho / rho

/-- Modelled from the spec: the constraint factor the specification states,
`J − 1 − (Σ mass_i)/ρ`, with the total fluid mass summed over compartments
and divided by the configured density once. -/
def specSolidConstraintFactor (N : ℕ) (mf : ℕ → ℚ) (rho J : ℚ) : ℚ :=
  J - 1 - (Finset.sum (Finset.range N) mf) / rho

/-- One compartment-exchange contribution of `set_fluid_variational_form`,
evaluated at a spatial point: the code adds
`-J*beta[i]*((p[i] - p[i+1])*vm[i] + (p[i+1] - p[i])*vm[i+1])*dx`.
`pa, pb` are the point values of `p[i], p[i+1]` and `va, vb` those of
`vm[i], vm[i+1]`. -/
def exchangeTermAt (J beta pa pb va vb : ℚ) : ℚ :=
  -J * beta * ((pa - pb) * va + (pb - pa) * vb)

/-- The volumetric fluid fraction set up in `__init__`:
`phif[i] = mf[i]/rho + phi0` (pointwise). -/
def phif (mf : ℕ → ℚ) (rho phi0 : ℚ) (i : ℕ) : ℚ :=
  mf i / rho + phi0

/-- The right-hand side of the pressure projection in
`fluid_solid_coupling`, evaluated at a point: the code forms
`Ll = (tr(diff(Psi, F) * F.T))/phif[i]*q*dx - L*q*dx`; `trPsiF` stands for
the point value of `tr(dΨ/dF · Fᵀ)` and `L` for the multiplier value. -/
def fluid_solid_coupling_rhs (trPsiF L : ℚ) (mf : ℕ → ℚ) (rho phi0 : ℚ) (i : ℕ) : ℚ :=
  trPsiF / phif mf rho phi0 i - L

/-! ## Symbolic model of the pressure-projection left-hand sides

In `fluid_solid_coupling` the loop body is

    a = p*q*dx
    Ll = ...
    p = Function(self.FS_F)
    solve(a == Ll, p, ...)

At entry `p` is `TrialFunction(self.FS_F)`, so the first `a` is the
trial-times-test mass matrix; at the end of each iteration the name `p` is
rebound to the freshly solved `Function`, so every later `a` is that
concrete function times the test function — an arity-one form, not a
bilinear mass matrix. -/

/-- What the left-hand side `a = p*q*dx` is, depending on what the name `p`
denotes when it is built. -/
inductive CoupLhs (F : Type) where
  /-- `p` is the trial function: `a` is the mass matrix. -/
  | massMatrix : CoupLhs F
  /-- `p` is an already-solved concrete function: `a` is that function
  times the test function. -/
  | funcForm : F → CoupLhs F
deriving DecidableEq

/-- What the Python name `p` denotes between iterations. -/
inductive PHandle (F : Type) where
  | trial : PHandle F
  | solved : F → PHandle F

/-- The loop of `fluid_solid_coupling`, recording the left-hand side built
at each compartment index.  `solveFn i` is the function the `i`-th call to
`solve` writes into the fresh `Function`. -/
def fluid_solid_coupling_go (F : Type) (solveFn : ℕ → F) :
    ℕ → ℕ → PHandle F → List (CoupLhs F)
  | 0, _, _ => []
  | k+1, i, pv =>
      (match pv with
        | PHandle.trial => CoupLhs.massMatrix
        | PHandle.solved v => CoupLhs.funcForm v) ::
        fluid_solid_coupling_go F solveFn k (i+1) (PHandle.solved (solveFn i))

/-- The list of left-hand sides the `N` solves of `fluid_solid_coupling`
are given, in order. -/
def fluid_solid_coupling_lhs (F : Type) (solveFn : ℕ → F) (N : ℕ) : List (CoupLhs F) :=
  fluid_solid_coupling_go F solveFn N 0 PHandle.trial

/-! ## Symbolic model of the fluid-form term list -/

/-- Integration measure of a term: volume (`dx`) or exterior boundary
(`ds`). -/
inductive Meas where
  | dx : Meas
  | ds : Meas
deriving DecidableEq

/-- The kind of a term of the fluid residual, tagged with the index of the
test function it pairs with. -/
inductive FluidTermKind where
  | timeDeriv : ℕ → FluidTermKind
  | advection : ℕ → FluidTermKind
  | diffusion : ℕ → FluidTermKind
  | exchange : ℕ → FluidTermKind
  | inflow : ℕ → FluidTermKind
  | outflow : ℕ → FluidTermKind
deriving DecidableEq

/-- A term of the fluid residual: its kind (with test-function index), the
sign it is added with, and its integration measure. -/
structure FluidTerm where
  kind : FluidTermKind
  sign : ℤ
  meas : Meas
deriving DecidableEq

/-- The term list built by `set_fluid_variational_form`.  For `N == 1`:
time derivative, advection, diffusion, then `+= -rho*qi*vm*dx` and
`+= rho*q_out*vm*dx`.  For `N > 1`: the three per-compartment sums, the
exchange loop over `range(len(beta))`, then `+= -rho*qi*vm[0]*dx` and
`+= rho*q_out*vm[-1]*dx` (`vm[-1]` is `vm[N-1]`).  Every term the code
adds carries the volume measure `dx`. -/
def set_fluid_variational_form_terms (N nbeta : ℕ) : List FluidTerm :=
  if N = 1 then
    [⟨FluidTermKind.timeDeriv 0, 1, Meas.dx⟩,
     ⟨FluidTermKind.advection 0, 1, Meas.dx⟩,
     ⟨FluidTermKind.diffusion 0, 1, Meas.dx⟩,
     ⟨FluidTermKind.inflow 0, -1, Meas.dx⟩,
     ⟨FluidTermKind.outflow 0, 1, Meas.dx⟩]
  else
    (List.range N).map (fun i => ⟨FluidTermKind.timeDeriv i, 1, Meas.dx⟩)
    ++ (List.range N).map (fun i => ⟨FluidTermKind.advection i, 1, Meas.dx⟩)
    ++ (List.range N).map (fun i => ⟨FluidTermKind.diffusion i, 1, Meas.dx⟩)
    ++ (List.range nbeta).map (fun i => ⟨FluidTermKind.exchange i, -1, Meas.dx⟩)
    ++ [⟨FluidTermKind.inflow 0, -1, Meas.dx⟩,
        ⟨FluidTermKind.outflow (N-1), 1, Meas.dx⟩]

/-! ## State-machine model of `solve()` -/

/-- The fields `solve()` reads and writes.  `F` is the abstract type of a
discrete field (a dolfin `Function`); `p0` is the first compartment's
pressure (the convergence proxy) and `pRest` the remaining pressures. -/
structure SimState (F : Type) where
  mf : F
  Us : F
  mf_n : F
  Us_n : F
  p0 : F
  pRest : F
  Uf : F
  mesh : F
deriving DecidableEq

/-- The opaque collaborators: each stage reads the current fields and
returns the one field it overwrites.  `l2norm a b` models
`sqrt(assemble((a - b)**2*dx))`; `zeroF` models the fresh
`Function(self.FS_F)` used as the scratch snapshot. -/
structure Oracle (F : Type) where
  solidSolve : SimState F → F
  coupling0 : SimState F → F
  couplingR : SimState F → F
  fluidSolve : SimState F → F
  l2norm : F → F → ℚ
  flow : SimState F → F
  moveMesh : SimState F → F
  zeroF : F

/-- Observable events of one run of `solve()`. -/
inductive Event where
  | snapshot : Event
  | solidSolve : Event
  | pressureCoupling : Event
  | fluidSolve : Event
  | epsUpdate : Event
  | commitPrev : Event
  | flowCalc : Event
  | emit : Event
  | meshMove : Event
deriving DecidableEq

/-- The inner-loop bookkeeping: the fields, the scratch snapshot `mf_`,
`eps` and `iter`. -/
structure InnerState (F : Type) where
  s : SimState F
  scratch : F
  eps : ℚ
  iter : ℕ
deriving DecidableEq

/-- One body of the Picard loop, in source order:
`mf_.assign(self.p[0])`; `ssol.solve()` (writes `Us` only);
`self.fluid_solid_coupling()` (writes the pressures only);
`msol.solve()` (writes `mf` only); `eps = sqrt(assemble(e**2*dx))` with
`e = self.p[0] - mf_`; `iter += 1`. -/
def innerStep (F : Type) (o : Oracle F) (st : InnerState F) : InnerState F :=
  let scr := st.s.p0
  let s1 := { st.s with Us := o.solidSolve st.s }
  let s2 := { s1 with p0 := o.coupling0 s1, pRest := o.couplingR s1 }
  let s3 := { s2 with mf := o.fluidSolve s2 }
  ⟨s3, scr, o.l2norm s3.p0 scr, st.iter + 1⟩

/-- The event trace of one inner-loop body. -/
def stepTrace : List Event :=
  [Event.snapshot, Event.solidSolve, Event.pressureCoupling,
   Event.fluidSolve, Event.epsUpdate]

/-- `maxiter = 100` in `solve()`. -/
def maxiter : ℕ := 100

/-- The Picard loop `while eps > tol and iter < maxiter`, fuelled; called
with fuel `maxiter` and `iter = 0` it simulates the source loop exactly
(the guard `iter < maxiter` fails exactly when the fuel runs out). -/
def innerLoopAux (F : Type) (o : Oracle F) (tol : ℚ) :
    ℕ → InnerState F → InnerState F × List Event
  | 0, st => (st, [])
  | f+1, st =>
      if tol < st.eps ∧ st.iter < maxiter then
        ((innerLoopAux F o tol f (innerStep F o st)).1,
         stepTrace ++ (innerLoopAux F o tol f (innerStep F o st)).2)
      else (st, [])

/-- The inner loop as entered by each timestep: `iter = 0`, `eps = 1`,
scratch `mf_ = Function(self.FS_F)`. -/
def innerLoop (F : Type) (o : Oracle F) (tol : ℚ) (s : SimState F) :
    InnerState F × List Event :=
  innerLoopAux F o tol maxiter ⟨s, o.zeroF, 1, 0⟩

/-- The tuple `solve()` yields once per timestep:
`yield self.mf, self.Uf, self.p, self.Us, t`. -/
structure Emission (F : Type) where
  mf : F
  Uf : F
  p0 : F
  pRest : F
  Us : F
  t : ℚ
deriving DecidableEq

/-- `self.mf_n.assign(self.mf); self.Us_n.assign(self.Us)`. -/
def commitPrevState (F : Type) (st : SimState F) : SimState F :=
  { st with mf_n := st.mf, Us_n := st.Us }

/-- State after `calculate_flow_vector()`. -/
def afterFlow (F : Type) (o : Oracle F) (st : SimState F) : SimState F :=
  { commitPrevState F st with Uf := o.flow (commitPrevState F st) }

/-- The per-timestep tuple, read off the current fields and the time. -/
def emissionOf (F : Type) (st : SimState F) (t : ℚ) : Emission F :=
  ⟨st.mf, st.Uf, st.p0, st.pRest, st.Us, t⟩

/-- The tail of one outer-loop body after the inner loop exits: commit the
previous-state fields, compute the flow vectors, emit the tuple, move the
mesh.  It reads only the fields `ist.s` of the inner-loop result — not
`eps`, `iter` or the scratch. -/
def commitAndEmit (F : Type) (o : Oracle F) (ist : InnerState F) (t : ℚ) :
    SimState F × Emission F × List Event :=
  ({ afterFlow F o ist.s with mesh := o.moveMesh (afterFlow F o ist.s) },
   emissionOf F (afterFlow F o ist.s) t,
   [Event.commitPrev, Event.flowCalc, Event.emit, Event.meshMove])

/-- One outer-loop body: inner Picard loop, then commit/flow/emit/move. -/
def timestep (F : Type) (o : Oracle F) (tol : ℚ) (s : SimState F) (t : ℚ) :
    SimState F × Emission F × List Event :=
  ((commitAndEmit F o (innerLoop F o tol s).1 t).1,
   (commitAndEmit F o (innerLoop F o tol s).1 t).2.1,
   (innerLoop F o tol s).2 ++ (commitAndEmit F o (innerLoop F o tol s).1 t).2.2)

/-- Prepend one timestep's emission and trace to the rest of a run. -/
def solveCons (F : Type) (em : Emission F) (tr : List Event) :
    Option (List (Emission F) × List Event) → Option (List (Emission F) × List Event)
  | none => none
  | some r => some (em :: r.1, tr ++ r.2)

/-- The outer loop `while t < tf`, fuelled: emits one tuple per timestep
before advancing `t += dt`; `none` means the fuel ran out before `t ≥ tf`,
so a `some` result is a complete, terminated run. -/
def solveAux (F : Type) (o : Oracle F) (tol dt tf : ℚ) :
    ℕ → ℚ → SimState F → Option (List (Emission F) × List Event)
  | 0, t, _ => if t < tf then none else some ([], [])
  | f+1, t, s =>
      if t < tf then
        solveCons F (timestep F o tol s t).2.1 (timestep F o tol s t).2.2
          (solveAux F o tol dt tf f (t + dt) (timestep F o tol s t).1)
      else some ([], [])

/-! ## Concrete instances used for evaluations and witnesses -/

/-- The all-zero initial field state over `F := ℕ`. -/
def simS0 : SimState ℕ := ⟨0, 0, 0, 0, 0, 0, 0, 0⟩

/-- Constant-stage oracle whose L2 norm is always `0`: the Picard loop
converges at the first iteration. -/
def oracleA : Oracle ℕ :=
  ⟨fun _ => 1, fun _ => 2, fun _ => 3, fun _ => 4, fun _ _ => 0, fun _ => 6, fun _ => 7, 0⟩

/-- Constant-stage oracle whose L2 norm is always `2`: with `tol = 1` the
Picard loop never converges and runs to `maxiter`.  Its field stages agree
with `oracleA`. -/
def oracleB : Oracle ℕ :=
  ⟨fun _ => 1, fun _ => 2, fun _ => 3, fun _ => 4, fun _ _ => 2, fun _ => 6, fun _ => 7, 0⟩

/-- Constant-stage oracle with L2 norm `5`, used with `tol = 1` so the
inner loop is skipped (`eps` starts at `1`, and `1 > 1` is false only when
`tol ≥ 1`; here `tol = 1`). -/
def oracleC : Oracle ℕ :=
  ⟨fun _ => 1, fun _ => 2, fun _ => 3, fun _ => 4, fun _ _ => 5, fun _ => 6, fun _ => 7, 0⟩

/-- Selects the inflow/outflow terms of the fluid residual. -/
def isInOrOut : FluidTerm → Bool
  | ⟨FluidTermKind.inflow _, _, _⟩ => true
  | ⟨FluidTermKind.outflow _, _, _⟩ => true
  | _ => false

/-- The three per-timestep tuples a run with `tf = 3·dt` emits. -/
def threeStepEmissions (F : Type) (o : Oracle F) (tol dt : ℚ) (s : SimState F) :
    List (Emission F) :=
  [(timestep F o tol s 0).2.1,
   (timestep F o tol (timestep F o tol s 0).1 (0+dt)).2.1,
   (timestep F o tol (timestep F o tol (timestep F o tol s 0).1 (0+dt)).1 (0+dt+dt)).2.1]

/-- The event trace of a run with `tf = 3·dt`. -/
def threeStepTrace (F : Type) (o : Oracle F) (tol dt : ℚ) (s : SimState F) : List Event :=
  (timestep F o tol s 0).2.2 ++
    ((timestep F o tol (timestep F o tol s 0).1 (0+dt)).2.2 ++
      ((timestep F o tol (timestep F o tol (timestep F o tol s 0).1 (0+dt)).1 (0+dt+dt)).2.2
        ++ []))

/-- Concrete quadrature weights and field values for the exchange-term
evaluation. -/
def qpa : ℕ → ℚ := fun n => (n : ℚ) + 1

def qpb : ℕ → ℚ := fun n => 2 * (n : ℚ)

def qv : ℕ → ℚ := fun n => (n : ℚ) - 3

def qw : ℕ → ℚ := fun n => (n : ℚ) + 2

def quad2 : Finset ℕ := {0, 1}

/-! ## Helper lemmas about the loop model -/

theorem innerLoopAux_zero (F : Type) (o : Oracle F) (tol : ℚ) (st : InnerState F) :
    innerLoopAux F o tol 0 st = (st, []) := rfl

theorem innerLoopAux_succ (F : Type) (o : Oracle F) (tol : ℚ) (f : ℕ) (st : InnerState F) :
    innerLoopAux F o tol (f+1) st =
      if tol < st.eps ∧ st.iter < maxiter then
        ((innerLoopAux F o tol f (innerStep F o st)).1,
         stepTrace ++ (innerLoopAux F o tol f (innerStep F o st)).2)
      else (st, []) := rfl

theorem innerStep_iter (F : Type) (o : Oracle F) (st : InnerState F) :
    (innerStep F o st).iter = st.iter + 1 := rfl

theorem innerLoopAux_trace (F : Type) (o : Oracle F) (tol : ℚ) :
    ∀ (f : ℕ) (st : InnerState F),
      st.iter ≤ (innerLoopAux F o tol f st).1.iter ∧
      (innerLoopAux F o tol f st).2 =
        (List.replicate ((innerLoopAux F o tol f st).1.iter - st.iter) stepTrace).flatten := by
  intro f
  induction f with
  | zero =>
      intro st
      exact ⟨le_refl _, by simp [innerLoopAux_zero]⟩
  | succ f ih =>
      intro st
      by_cases hg : tol < st.eps ∧ st.iter < maxiter
      · have h2 := ih (innerStep F o st)
        have hiter : (innerStep F o st).iter = st.iter + 1 := rfl
        rw [hiter] at h2
        have hk : (innerLoopAux F o tol f (innerStep F o st)).1.iter - st.iter
            = ((innerLoopAux F o tol f (innerStep F o st)).1.iter - (st.iter + 1)) + 1 := by
          have := h2.1
          omega
        constructor
        · rw [innerLoopAux_succ, if_pos hg]
          exact le_trans (Nat.le_succ _) h2.1
        · rw [innerLoopAux_succ, if_pos hg]
          show stepTrace ++ (innerLoopAux F o tol f (innerStep F o st)).2
              = (List.replicate
                  ((innerLoopAux F o tol f (innerStep F o st)).1.iter - st.iter)
                  stepTrace).flatten
          rw [h2.2, hk, List.replicate_succ, List.flatten_cons]
      · rw [innerLoopAux_succ, if_neg hg]
        exact ⟨le_refl _, by simp⟩

theorem innerLoopAux_exit (F : Type) (o : Oracle F) (tol : ℚ) :
    ∀ (f : ℕ) (st : InnerState F), st.iter + f = maxiter →
      (innerLoopAux F o tol f st).1.eps ≤ tol ∨
      (innerLoopAux F o tol f st).1.iter = maxiter := by
  intro f
  induction f with
  | zero =>
      intro st h
      right
      simpa using h
  | succ f ih =>
      intro st h
      by_cases hg : tol < st.eps ∧ st.iter < maxiter
      · rw [innerLoopAux_succ, if_pos hg]
        refine ih (innerStep F o st) ?_
        rw [innerStep_iter]
        omega
      · rw [innerLoopAux_succ, if_neg hg]
        left
        have hm : maxiter = 100 := rfl
        have hlt : st.iter < maxiter := by omega
        have heps : ¬ tol < st.eps := fun hc => hg ⟨hc, hlt⟩
        exact le_of_not_lt heps

theorem innerStep_frame (F : Type) (o : Oracle F) (st : InnerState F) :
    (innerStep F o st).s.mf_n = st.s.mf_n ∧ (innerStep F o st).s.Us_n = st.s.Us_n ∧
    (innerStep F o st).s.Uf = st.s.Uf ∧ (innerStep F o st).s.mesh = st.s.mesh :=
  ⟨rfl, rfl, rfl, rfl⟩

theorem innerLoopAux_frame (F : Type) (o : Oracle F) (tol : ℚ) :
    ∀ (f : ℕ) (st : InnerState F),
      (innerLoopAux F o tol f st).1.s.mf_n = st.s.mf_n ∧
      (innerLoopAux F o tol f st).1.s.Us_n = st.s.Us_n ∧
      (innerLoopAux F o tol f st).1.s.Uf = st.s.Uf ∧
      (innerLoopAux F o tol f st).1.s.mesh = st.s.mesh := by
  intro f
  induction f with
  | zero =>
      intro st
      exact ⟨rfl, rfl, rfl, rfl⟩
  | succ f ih =>
      intro st
      by_cases hg : tol < st.eps ∧ st.iter < maxiter
      · rw [innerLoopAux_succ, if_pos hg]
        have h1 := ih (innerStep F o st)
        have h2 := innerStep_frame F o st
        exact ⟨h1.1.trans h2.1, h1.2.1.trans h2.2.1,
               h1.2.2.1.trans h2.2.2.1, h1.2.2.2.trans h2.2.2.2⟩
      · rw [innerLoopAux_succ, if_neg hg]
        exact ⟨rfl, rfl, rfl, rfl⟩

theorem count_flatten_replicate (l : List Event) (e : Event) :
    ∀ n : ℕ, ((List.replicate n l).flatten).count e = n * l.count e := by
  intro n
  induction n with
  | zero => simp
  | succ n ih =>
      rw [List.replicate_succ, List.flatten_cons, List.count_append, ih]
      ring

theorem innerLoop_skip (F : Type) (o : Oracle F) (tol : ℚ) (h : 1 ≤ tol) (s : SimState F) :
    innerLoop F o tol s = (⟨s, o.zeroF, 1, 0⟩, []) := by
  have hg : ¬ ((⟨s, o.zeroF, 1, 0⟩ : InnerState F).eps > tol ∧
      (⟨s, o.zeroF, 1, 0⟩ : InnerState F).iter < maxiter) := by
    intro hc
    exact absurd hc.1 (not_lt.mpr h)
  show innerLoopAux F o tol (99+1) ⟨s, o.zeroF, 1, 0⟩ = _
  rw [innerLoopAux_succ, if_neg hg]

theorem solveAux_stop (F : Type) (o : Oracle F) (tol dt tf : ℚ) (f : ℕ) (t : ℚ)
    (s : SimState F) (h : ¬ t < tf) :
    solveAux F o tol dt tf f t s = some ([], []) := by
  cases f <;> simp [solveAux, h]

theorem solveAux_step (F : Type) (o : Oracle F) (tol dt tf : ℚ) (f : ℕ) (t : ℚ)
    (s : SimState F) (h : t < tf) :
    solveAux F o tol dt tf (f+1) t s =
      solveCons F (timestep F o tol s t).2.1 (timestep F o tol s t).2.2
        (solveAux F o tol dt tf f (t + dt) (timestep F o tol s t).1) := by
  simp [solveAux, h]

theorem timestep_emit_t (F : Type) (o : Oracle F) (tol : ℚ) (s : SimState F) (t : ℚ) :
    (timestep F o tol s t).2.1.t = t := rfl

theorem timestep_trace (F : Type) (o : Oracle F) (tol : ℚ) (s : SimState F) (t : ℚ) :
    (timestep F o tol s t).2.2 = (innerLoop F o tol s).2 ++
      [Event.commitPrev, Event.flowCalc, Event.emit, Event.meshMove] := rfl

/-! ## Claim theorems -/

/-- C1: the claim states that the factor multiplying the Lagrange
multiplier `L` in the solid residual equals `J − 1 − (Σ mass_i)/ρ`.  In
the code, `sum_fluid_mass` already divides the summed mass by `rho` and
`set_solid_variational_form` divides by `rho` again, so the factor the
code builds is `J − 1 − (Σ mass_i)/ρ²`.  At `N = 1`, `mass₀ = 2`, `ρ = 2`,
`J = 1` the code's factor is `−1/2` while the claimed factor is `−1`. -/
theorem solid_multiplier_divides_by_rho_twice :
    solidMultiplierFactor 1 (fun _ => 2) 2 1 = -(1/2) ∧
    specSolidConstraintFactor 1 (fun _ => 2) 2 1 = -1 ∧
    solidMultiplierFactor 1 (fun _ => 2) 2 1
      = specSolidConstraintFactor 1 (fun _ => 2) 2 1 + 1/2 := by
  refine ⟨?_, ?_, ?_⟩ <;>
    norm_num [solidMultiplierFactor, specSolidConstraintFactor, sum_fluid_mass]

/-- C2: the claim states that for every compartment `i` the pressure is
obtained by a mass-matrix projection of `∂Ψ/∂(J·phif_i) − L`.  Evaluating
the loop of `fluid_solid_coupling` at `N = 2`: because the name `p` is
rebound from the trial function to the freshly solved function at the end
of iteration 0, only the first solve's left-hand side is the mass matrix;
the second solve's left-hand side is the previously solved pressure
function times the test function (an arity-one form, which dolfin rejects
as a bilinear form).  The right-hand side conjunct records that the
projection source divides by `phif_i = mf_i/ρ + φ0` and subtracts `L`. -/
theorem coupling_projection_lhs_at_two_compartments :
    fluid_solid_coupling_lhs ℕ (fun i => 10 + i) 2 =
      [CoupLhs.massMatrix, CoupLhs.funcForm 10] ∧
    (fluid_solid_coupling_lhs ℕ (fun i => 10 + i) 2).count CoupLhs.massMatrix = 1 ∧
    fluid_solid_coupling_rhs 6 2 (fun _ => 4) 2 1 0 = 6 / ((4:ℚ) / 2 + 1) - 2 := by
  refine ⟨by decide, by decide, rfl⟩

/-- C6: the claim states that every one of the `N` pressure solves has the
mass matrix as its left-hand side.  Evaluating the loop at `N = 3`: only
the first of the three solves is given the trial-times-test mass matrix;
the later two are given the previously solved function times the test
function, so the mass matrix occurs exactly once, not three times. -/
theorem coupling_mass_matrix_only_first :
    fluid_solid_coupling_lhs ℕ (fun i => i) 3 =
      [CoupLhs.massMatrix, CoupLhs.funcForm 0, CoupLhs.funcForm 1] ∧
    (fluid_solid_coupling_lhs ℕ (fun i => i) 3).count CoupLhs.massMatrix = 1 := by
  exact ⟨by decide, by decide⟩

/-- C5: the two exchange contributions the code adds for an adjacent
compartment pair are pointwise opposite: at any point where the two test
functions coincide the combined term vanishes, the raw pair
`β(p_i − p_{i+1}) + β(p_{i+1} − p_i)` vanishes identically, and hence any
quadrature sum of the combined term over the domain is zero whenever the
test functions coincide on the quadrature points. -/
theorem exchange_pair_cancels (ι : Type) (J beta pa0 pb0 v0 : ℚ)
    (pa pb va vb w : ι → ℚ) (quad : Finset ι)
    (h : ∀ x ∈ quad, va x = vb x) :
    exchangeTermAt J beta pa0 pb0 v0 v0 = 0 ∧
    beta * (pa0 - pb0) + beta * (pb0 - pa0) = 0 ∧
    Finset.sum quad (fun x => w x * exchangeTermAt J beta (pa x) (pb x) (va x) (vb x)) = 0 := by
  refine ⟨?_, by ring, ?_⟩
  · unfold exchangeTermAt
    ring
  · refine Finset.sum_eq_zero ?_
    intro x hx
    rw [h x hx]
    unfold exchangeTermAt
    ring

/-- Witness for C5: the exchange cancellation evaluated at concrete field
and weight functions on a two-point quadrature set, with the coinciding
test functions discharged by computation. -/
theorem exchange_pair_cancels_witness :
    exchangeTermAt 5 7 3 11 4 4 = 0 ∧
    (7:ℚ) * (3 - 11) + 7 * (11 - 3) = 0 ∧
    Finset.sum quad2 (fun x => qw x * exchangeTermAt 5 7 (qpa x) (qpb x) (qv x) (qv x)) = 0 :=
  exchange_pair_cancels ℕ 5 7 3 11 4 qpa qpb qv qv qw quad2 (fun _ _ => rfl)

/-- C7 counterexample: the claim says the inflow and outflow contributions
enter the fluid residual "as boundary terms".  In fact every term the code
adds — the inflow and outflow ones included — is a volume integral (`dx`);
no term of the residual carries the boundary measure `ds`, at `N = 1` and
at `N = 3` with two exchange coefficients alike. -/
theorem inflow_outflow_not_boundary_terms :
    ((set_fluid_variational_form_terms 1 0).all (fun tm => tm.meas == Meas.dx)) = true ∧
    ((set_fluid_variational_form_terms 3 2).all (fun tm => tm.meas == Meas.dx)) = true ∧
    ((⟨FluidTermKind.inflow 0, -1, Meas.dx⟩ : FluidTerm) ∈ set_fluid_variational_form_terms 1 0) ∧
    ((⟨FluidTermKind.inflow 0, -1, Meas.dx⟩ : FluidTerm) ∈ set_fluid_variational_form_terms 3 2) ∧
    (Meas.dx == Meas.ds) = false := by
  refine ⟨by decide, by decide, by decide, by decide, by decide⟩

/-- C7 (amended): for every `N ≥ 1` the only inflow/outflow terms of the
fluid residual are `−ρ·q_in` against the first compartment's test function
and `+ρ·q_out` against the last compartment's test function, both as
volume (`dx`) integrals over the domain rather than boundary terms; at
`N = 1` both attach to the single compartment. -/
theorem inflow_outflow_attachment (N nbeta : ℕ) (hN : 1 ≤ N) :
    ((⟨FluidTermKind.inflow 0, -1, Meas.dx⟩ : FluidTerm)
      ∈ set_fluid_variational_form_terms N nbeta) ∧
    ((⟨FluidTermKind.outflow (N-1), 1, Meas.dx⟩ : FluidTerm)
      ∈ set_fluid_variational_form_terms N nbeta) ∧
    (set_fluid_variational_form_terms N nbeta).filter isInOrOut =
      [⟨FluidTermKind.inflow 0, -1, Meas.dx⟩, ⟨FluidTermKind.outflow (N-1), 1, Meas.dx⟩] := by
  rcases Nat.lt_or_ge N 2 with h2 | h2
  · have hN1 : N = 1 := by omega
    subst hN1
    unfold set_fluid_variational_form_terms
    rw [if_pos rfl]
    refine ⟨by decide, by decide, by decide⟩
  · have hne : ¬ N = 1 := by omega
    unfold set_fluid_variational_form_terms
    rw [if_neg hne]
    have hmap : ∀ (K : ℕ → FluidTermKind) (sg : ℤ) (m : Meas) (n : ℕ),
        (∀ i, isInOrOut ⟨K i, sg, m⟩ = false) →
        ((List.range n).map (fun i => (⟨K i, sg, m⟩ : FluidTerm))).filter isInOrOut = [] := by
      intro K sg m n hK
      rw [List.filter_eq_nil_iff]
      intro a ha
      rw [List.mem_map] at ha
      obtain ⟨i, _, rfl⟩ := ha
      simp [hK i]
    refine ⟨?_, ?_, ?_⟩
    · simp
    · simp
    · rw [List.filter_append, List.filter_append, List.filter_append, List.filter_append]
      rw [hmap FluidTermKind.timeDeriv 1 Meas.dx N (fun i => rfl),
          hmap FluidTermKind.advection 1 Meas.dx N (fun i => rfl),
          hmap FluidTermKind.diffusion 1 Meas.dx N (fun i => rfl),
          hmap FluidTermKind.exchange (-1) Meas.dx nbeta (fun i => rfl)]
      rfl

/-- Witness for C7: the amended attachment statement evaluated at `N = 3`
with two exchange coefficients. -/
theorem inflow_outflow_attachment_witness :
    ((⟨FluidTermKind.inflow 0, -1, Meas.dx⟩ : FluidTerm)
      ∈ set_fluid_variational_form_terms 3 2) ∧
    ((⟨FluidTermKind.outflow (3-1), 1, Meas.dx⟩ : FluidTerm)
      ∈ set_fluid_variational_form_terms 3 2) ∧
    (set_fluid_variational_form_terms 3 2).filter isInOrOut =
      [⟨FluidTermKind.inflow 0, -1, Meas.dx⟩, ⟨FluidTermKind.outflow (3-1), 1, Meas.dx⟩] :=
  inflow_outflow_attachment 3 2 (by norm_num)

/-- C3: each inner Picard iteration performs, in order, the snapshot of the
first compartment's pressure, the solid solve, the pressure recomputation,
the fluid solve and the eps update (the event trace of the loop is exactly
one `stepTrace` block per completed iteration); `eps` is recomputed as the
norm of the difference between the new first-compartment pressure and the
snapshot; on exit either `eps ≤ tol` or the iteration count reached
`maxiter = 100`; a state with `eps ≤ tol` exits immediately, and a state
with `eps > tol` and `iter < maxiter` performs one more body on the
updated snapshot. -/
theorem picard_inner_loop_order_and_exit (F : Type) (o : Oracle F) (tol : ℚ)
    (s : SimState F) :
    maxiter = 100 ∧
    stepTrace = [Event.snapshot, Event.solidSolve, Event.pressureCoupling,
                 Event.fluidSolve, Event.epsUpdate] ∧
    (∀ st : InnerState F, (innerStep F o st).scratch = st.s.p0 ∧
      (innerStep F o st).eps = o.l2norm (innerStep F o st).s.p0 st.s.p0 ∧
      (innerStep F o st).iter = st.iter + 1) ∧
    (innerLoop F o tol s).2 =
      (List.replicate (innerLoop F o tol s).1.iter stepTrace).flatten ∧
    ((innerLoop F o tol s).1.eps ≤ tol ∨ (innerLoop F o tol s).1.iter = maxiter) ∧
    (∀ (f : ℕ) (st : InnerState F), st.eps ≤ tol →
      innerLoopAux F o tol f st = (st, [])) ∧
    (∀ (f : ℕ) (st : InnerState F), tol < st.eps → st.iter < maxiter →
      innerLoopAux F o tol (f+1) st =
        ((innerLoopAux F o tol f (innerStep F o st)).1,
         stepTrace ++ (innerLoopAux F o tol f (innerStep F o st)).2)) := by
  refine ⟨rfl, rfl, fun st => ⟨rfl, rfl, rfl⟩, ?_, ?_, ?_, ?_⟩
  · have h := (innerLoopAux_trace F o tol maxiter ⟨s, o.zeroF, 1, 0⟩).2
    simpa [innerLoop] using h
  · exact innerLoopAux_exit F o tol maxiter ⟨s, o.zeroF, 1, 0⟩ rfl
  · intro f st h
    cases f with
    | zero => rfl
    | succ f =>
        rw [innerLoopAux_succ, if_neg]
        intro hc
        exact absurd hc.1 (not_lt.mpr h)
  · intro f st h1 h2
    rw [innerLoopAux_succ, if_pos ⟨h1, h2⟩]

/-- Witness for C3: the continue-branch and exit-branch characterisations
applied at concrete loop states (one with `eps = 2 > tol = 1` and
`iter = 5 < 100`, one with `eps = 1/2 ≤ tol = 1`). -/
theorem picard_inner_loop_order_and_exit_witness :
    innerLoopAux ℕ oracleB 1 4 ⟨simS0, 0, 2, 5⟩ =
      ((innerLoopAux ℕ oracleB 1 3 (innerStep ℕ oracleB ⟨simS0, 0, 2, 5⟩)).1,
       stepTrace ++ (innerLoopAux ℕ oracleB 1 3 (innerStep ℕ oracleB ⟨simS0, 0, 2, 5⟩)).2) ∧
    innerLoopAux ℕ oracleA 1 7 ⟨simS0, 0, (1:ℚ)/2, 3⟩ = (⟨simS0, 0, (1:ℚ)/2, 3⟩, []) := by
  have h := picard_inner_loop_order_and_exit ℕ oracleB 1 simS0
  have h2 := picard_inner_loop_order_and_exit ℕ oracleA 1 simS0
  exact ⟨h.2.2.2.2.2.2 3 ⟨simS0, 0, 2, 5⟩ (by norm_num) (by decide),
         h2.2.2.2.2.2.1 7 ⟨simS0, 0, (1:ℚ)/2, 3⟩ (by norm_num)⟩

/-- C9: the inner Picard loop never touches the previous-timestep fields
(`mf_n`, `Us_n`) nor the flow vectors or the mesh — it changes only the
current fields, the scratch snapshot and the loop bookkeeping; the
per-timestep tail appends exactly one `commitPrev` event (the inner trace
contains none), placed after all inner-loop events, and the committed
previous-state fields are exactly the post-loop current fields. -/
theorem previous_state_committed_once_per_timestep (F : Type) (o : Oracle F) (tol : ℚ)
    (s : SimState F) (t : ℚ) :
    (innerLoop F o tol s).1.s.mf_n = s.mf_n ∧
    (innerLoop F o tol s).1.s.Us_n = s.Us_n ∧
    (innerLoop F o tol s).1.s.Uf = s.Uf ∧
    (innerLoop F o tol s).1.s.mesh = s.mesh ∧
    ((innerLoop F o tol s).2).count Event.commitPrev = 0 ∧
    (timestep F o tol s t).2.2 = (innerLoop F o tol s).2 ++
      [Event.commitPrev, Event.flowCalc, Event.emit, Event.meshMove] ∧
    (timestep F o tol s t).1.mf_n = (innerLoop F o tol s).1.s.mf ∧
    (timestep F o tol s t).1.Us_n = (innerLoop F o tol s).1.s.Us := by
  have hf := innerLoopAux_frame F o tol maxiter ⟨s, o.zeroF, 1, 0⟩
  have ht := (innerLoopAux_trace F o tol maxiter ⟨s, o.zeroF, 1, 0⟩).2
  refine ⟨hf.1, hf.2.1, hf.2.2.1, hf.2.2.2, ?_, rfl, rfl, rfl⟩
  show (innerLoopAux F o tol maxiter ⟨s, o.zeroF, 1, 0⟩).2.count Event.commitPrev = 0
  rw [ht, count_flatten_replicate]
  have hc : stepTrace.count Event.commitPrev = 0 := rfl
  rw [hc, Nat.mul_zero]

/-- C10: with `eps` initialised to `1` and the guard `eps > tol`, any
configured tolerance `tol ≥ 1` makes the inner Picard loop body run zero
times — the loop returns its entry state with `iter = 0` and an empty
trace — while every completed run of the outer loop still performs the
previous-state commit, the flow-vector computation, one emission per
timestep and the mesh move (and contains no solid-solve,
pressure-coupling or fluid-solve event at all). -/
theorem tol_ge_one_skips_inner_loop (F : Type) (o : Oracle F) (tol dt tf : ℚ)
    (h : 1 ≤ tol) :
    (∀ s : SimState F, innerLoop F o tol s = (⟨s, o.zeroF, 1, 0⟩, [])) ∧
    (∀ (f : ℕ) (t : ℚ) (s : SimState F) (ems : List (Emission F)) (tr : List Event),
      solveAux F o tol dt tf f t s = some (ems, tr) →
      tr.count Event.solidSolve = 0 ∧ tr.count Event.pressureCoupling = 0 ∧
      tr.count Event.fluidSolve = 0 ∧ tr.count Event.commitPrev = ems.length ∧
      tr.count Event.flowCalc = ems.length ∧ tr.count Event.emit = ems.length ∧
      tr.count Event.meshMove = ems.length) := by
  refine ⟨innerLoop_skip F o tol h, ?_⟩
  intro f
  induction f with
  | zero =>
      intro t s ems tr hrun
      by_cases ht : t < tf
      · simp [solveAux, ht] at hrun
      · simp only [solveAux, if_neg ht, Option.some.injEq, Prod.mk.injEq] at hrun
        obtain ⟨h1, h2⟩ := hrun
        subst h1
        subst h2
        simp
  | succ f ih =>
      intro t s ems tr hrun
      by_cases ht : t < tf
      · rw [solveAux_step F o tol dt tf f t s ht] at hrun
        have hts : (timestep F o tol s t).2.2 =
            [Event.commitPrev, Event.flowCalc, Event.emit, Event.meshMove] := by
          rw [timestep_trace, innerLoop_skip F o tol h s]
          rfl
        cases hrec : solveAux F o tol dt tf f (t + dt) (timestep F o tol s t).1 with
        | none =>
            rw [hrec] at hrun
            simp [solveCons] at hrun
        | some r =>
            rw [hrec] at hrun
            simp only [solveCons, Option.some.injEq, Prod.mk.injEq] at hrun
            obtain ⟨h1, h2⟩ := hrun
            subst h1
            subst h2
            have hr := ih (t + dt) (timestep F o tol s t).1 r.1 r.2 (by rw [hrec])
            rw [hts]
            refine ⟨?_, ?_, ?_, ?_, ?_, ?_, ?_⟩ <;>
              simp [List.count_append, List.count_cons, hr.1, hr.2.1, hr.2.2.1,
                    hr.2.2.2.1, hr.2.2.2.2.1, hr.2.2.2.2.2.1, hr.2.2.2.2.2.2]
      · rw [solveAux_stop F o tol dt tf (f+1) t s ht] at hrun
        simp only [Option.some.injEq, Prod.mk.injEq] at hrun
        obtain ⟨h1, h2⟩ := hrun
        subst h1
        subst h2
        simp

/-- Witness for C10: `tol = 1 ≥ 1` at a concrete oracle; the inner loop
returns its entry state untouched with an empty trace, and a terminated
outer run (entered at `t = 5 ≥ tf = 2`) satisfies the count equations. -/
theorem tol_ge_one_skips_inner_loop_witness :
    innerLoop ℕ oracleC 1 simS0 = (⟨simS0, 0, 1, 0⟩, []) ∧
    (([] : List Event).count Event.solidSolve = 0 ∧
     ([] : List Event).count Event.pressureCoupling = 0 ∧
     ([] : List Event).count Event.fluidSolve = 0 ∧
     ([] : List Event).count Event.commitPrev = ([] : List (Emission ℕ)).length ∧
     ([] : List Event).count Event.flowCalc = ([] : List (Emission ℕ)).length ∧
     ([] : List Event).count Event.emit = ([] : List (Emission ℕ)).length ∧
     ([] : List Event).count Event.meshMove = ([] : List (Emission ℕ)).length) := by
  have h := tol_ge_one_skips_inner_loop ℕ oracleC 1 1 2 (by norm_num)
  exact ⟨h.1 simS0,
         h.2 4 5 simS0 [] [] (solveAux_stop ℕ oracleC 1 1 2 4 5 simS0 (by norm_num))⟩

/-- C8: for any timestep `dt > 0` and final time `tf = 3·dt`, the outer
loop terminates after exactly three timesteps whatever extra fuel it is
given, emitting exactly three per-timestep tuples whose times are
`0, dt, 2·dt` (the tuple is emitted before `t += dt`). -/
theorem solve_emits_three_timesteps (F : Type) (o : Oracle F) (tol : ℚ) (s : SimState F)
    (dt : ℚ) (hdt : 0 < dt) (f : ℕ) :
    solveAux F o tol dt (3*dt) (f+3) 0 s =
      some (threeStepEmissions F o tol dt s, threeStepTrace F o tol dt s) ∧
    (threeStepEmissions F o tol dt s).length = 3 ∧
    (threeStepEmissions F o tol dt s).map Emission.t = [0, dt, 2*dt] := by
  have h0 : (0:ℚ) < 3*dt := by linarith
  have h1 : (0:ℚ) + dt < 3*dt := by linarith
  have h2 : (0:ℚ) + dt + dt < 3*dt := by linarith
  have h3 : ¬ ((0:ℚ) + dt + dt + dt < 3*dt) := by
    intro hc
    linarith
  refine ⟨?_, rfl, ?_⟩
  · rw [show f+3 = (f+2)+1 from rfl,
        solveAux_step F o tol dt (3*dt) (f+2) 0 s h0]
    rw [show f+2 = (f+1)+1 from rfl,
        solveAux_step F o tol dt (3*dt) (f+1) (0+dt) (timestep F o tol s 0).1 h1]
    rw [solveAux_step F o tol dt (3*dt) f (0+dt+dt)
        (timestep F o tol (timestep F o tol s 0).1 (0+dt)).1 h2]
    rw [solveAux_stop F o tol dt (3*dt) f (0+dt+dt+dt)
        (timestep F o tol (timestep F o tol (timestep F o tol s 0).1 (0+dt)).1 (0+dt+dt)).1 h3]
    rfl
  · show [(timestep F o tol s 0).2.1.t,
          (timestep F o tol (timestep F o tol s 0).1 (0+dt)).2.1.t,
          (timestep F o tol (timestep F o tol (timestep F o tol s 0).1 (0+dt)).1
            (0+dt+dt)).2.1.t] = [0, dt, 2*dt]
    rw [timestep_emit_t, timestep_emit_t, timestep_emit_t]
    simp [zero_add, two_mul]

/-- Witness for C8: the three-timestep run at `dt = 1`, a concrete oracle
and the zero initial state. -/
theorem solve_emits_three_timesteps_witness :
    solveAux ℕ oracleC 1 1 (3*1) (0+3) 0 simS0 =
      some (threeStepEmissions ℕ oracleC 1 1 simS0, threeStepTrace ℕ oracleC 1 1 simS0) ∧
    (threeStepEmissions ℕ oracleC 1 1 simS0).length = 3 ∧
    (threeStepEmissions ℕ oracleC 1 1 simS0).map Emission.t = [0, 1, 2*1] :=
  solve_emits_three_timesteps ℕ oracleC 1 simS0 1 (by norm_num) 0

set_option maxRecDepth 8000 in
/-- C4 counterexample: the claim says the Picard loop's failure to meet
`TOL` within `maxiter` iterations is reported to the caller as part of the
per-timestep emitted result.  Take `tol = 0` and two runs from the same
state whose stage solvers agree and which differ only in the computed
norm: run A converges at the first iteration (`eps = 0 ≤ tol`), run B
never converges and exhausts `maxiter = 100` with `eps = 2 > tol` — yet
both timesteps emit exactly the same tuple, so no component of the emitted
result reports the non-convergence (and the non-convergent run still emits
rather than raising). -/
theorem nonconvergent_run_emits_same_tuple :
    (innerLoop ℕ oracleA 0 simS0).1.eps ≤ 0 ∧
    (innerLoop ℕ oracleA 0 simS0).1.iter = 1 ∧
    0 < (innerLoop ℕ oracleB 0 simS0).1.eps ∧
    (innerLoop ℕ oracleB 0 simS0).1.iter = maxiter ∧
    (timestep ℕ oracleA 0 simS0 0).2.1 = (timestep ℕ oracleB 0 simS0 0).2.1 := by
  refine ⟨by decide, by decide, by decide, by decide, by decide⟩

/-- C4 (amended): when the inner loop exhausts `maxiter` the run proceeds
without raising, committing and emitting exactly as a converged step does;
the non-convergence is not part of the emitted result — the per-timestep
tail is a function of the inner loop's field state alone, so two inner
results with equal fields but different `eps`/`iter` (one converged, one
not) produce identical commits, emissions and traces, and the emitted
tuple is always the post-commit field tuple stamped with the current
time. -/
theorem emission_ignores_convergence (F : Type) (o : Oracle F) (t : ℚ)
    (r1 r2 : InnerState F) (h : r1.s = r2.s) :
    commitAndEmit F o r1 t = commitAndEmit F o r2 t ∧
    (commitAndEmit F o r1 t).2.1 = emissionOf F (afterFlow F o r1.s) t ∧
    (commitAndEmit F o r1 t).2.1.t = t := by
  refine ⟨?_, rfl, rfl⟩
  unfold commitAndEmit
  rw [h]

/-- Witness for C4: two concrete inner results over the same fields, one
with `eps = 0` after one iteration, one with `eps = 7` after `100`
iterations, produce identical per-timestep tails. -/
theorem emission_ignores_convergence_witness :
    commitAndEmit ℕ oracleC ⟨simS0, 0, 0, 1⟩ 0 = commitAndEmit ℕ oracleC ⟨simS0, 5, 7, 100⟩ 0 ∧
    (commitAndEmit ℕ oracleC ⟨simS0, 0, 0, 1⟩ 0).2.1 =
      emissionOf ℕ (afterFlow ℕ oracleC simS0) 0 ∧
    (commitAndEmit ℕ oracleC ⟨simS0, 0, 0, 1⟩ 0).2.1.t = 0 :=
  emission_ignores_convergence ℕ oracleC 0 ⟨simS0, 0, 0, 1⟩ ⟨simS0, 5, 7, 100⟩ rfl
